import Mathlib

set_option linter.unusedVariables false

/-!
# Verification of `mgen.rotation_matrix_nd.rotation_from_angle_and_plane`

A shallow embedding of the single function of the `mgen` repository
(`src/mgen/rotation_matrix_nd.py`) over the real numbers, together with
theorems about its validation behaviour and the algebraic properties of the
rotation matrix it builds.

Vectors are modelled as `Fin n → ℝ`; a vector argument carries its length in
its type, so the two inputs may have different lengths `n1`, `n2` and the
dimension-mismatch check of the source is faithfully represented.  The matrix
returned on success is a Mathlib `Matrix (Fin n1) (Fin n1) ℝ`, and the two
`ValueError`s the source can raise are the two constructors of `RotErr`.

A second, IEEE-style embedding (`FVal`, further down) models the NaN
propagation of the floating-point source for zero-norm input vectors; the
real-number embedding cannot express that behaviour since over `ℝ` division
by zero is total.
-/

open scoped Classical
open scoped Matrix

noncomputable section

namespace Mgen

/-- The Euclidean norm, `np.linalg.norm(v)` (line 41/42 of the source). -/
def npNorm {n : ℕ} (v : Fin n → ℝ) : ℝ := Real.sqrt (∑ i, v i ^ 2)

/-- Componentwise division of a vector by its Euclidean norm,
`np.asarray(v)/np.linalg.norm(v)` (lines 41-42 of the source). -/
def normalize {n : ℕ} (v : Fin n → ℝ) : Fin n → ℝ := fun i => v i / npNorm v

/-- The dot product `v.dot(w)` (line 48 of the source). -/
def dotv {n : ℕ} (v w : Fin n → ℝ) : ℝ := ∑ i, v i * w i

/-- Python's `math.isclose(a, b, abs_tol=t)` with the default
`rel_tol = 1e-09`: `|a - b| <= max(rel_tol * max(|a|, |b|), abs_tol)`. -/
def isclose (a b abs_tol : ℝ) : Prop :=
  |a - b| ≤ max (1e-9 * max |a| |b|) abs_tol

/-- The two `ValueError`s `rotation_from_angle_and_plane` can raise:
line 45 (carrying both lengths) and line 49 (carrying the tolerance used). -/
inductive RotErr where
  | dimensionMismatch (len1 len2 : ℕ)
  | notOrthogonal (absTolerance : ℝ)

/-- Line 52 of the source: `V = np.outer(vector1, vector1) + np.outer(vector2, vector2)`. -/
def Vmat {n : ℕ} (v1 v2 : Fin n → ℝ) : Matrix (Fin n) (Fin n) ℝ :=
  Matrix.vecMulVec v1 v1 + Matrix.vecMulVec v2 v2

/-- Line 53 of the source: `W = np.outer(vector1, vector2) - np.outer(vector2, vector1)`. -/
def Wmat {n : ℕ} (v1 v2 : Fin n → ℝ) : Matrix (Fin n) (Fin n) ℝ :=
  Matrix.vecMulVec v1 v2 - Matrix.vecMulVec v2 v1

/-- Line 55 of the source: the returned matrix
`np.eye(n) + (math.cos(angle) - 1)*V - math.sin(angle)*W`. -/
def rotMatrix {n : ℕ} (angle : ℝ) (v1 v2 : Fin n → ℝ) :
    Matrix (Fin n) (Fin n) ℝ :=
  1 + (Real.cos angle - 1) • Vmat v1 v2 - Real.sin angle • Wmat v1 v2

/-- `rotation_from_angle_and_plane(angle, vector1, vector2,
abs_tolerance_orthogonal_check)`: normalize both inputs, raise a
`ValueError` if the lengths differ, raise a `ValueError` if the normalized
vectors fail the `math.isclose` orthogonality check, and otherwise return
the rotation matrix `rotMatrix`.  The Python default for the tolerance is
`1e-10`; here the tolerance is always passed explicitly. -/
def rotation_from_angle_and_plane {n1 n2 : ℕ} (angle : ℝ)
    (vector1 : Fin n1 → ℝ) (vector2 : Fin n2 → ℝ)
    (abs_tolerance_orthogonal_check : ℝ) :
    Except RotErr (Matrix (Fin n1) (Fin n1) ℝ) :=
  let v1 := normalize vector1
  let v2 := normalize vector2
  if h : n1 = n2 then
    let v2' : Fin n1 → ℝ := fun i => v2 (Fin.cast h i)
    if isclose (dotv v1 v2') 0 abs_tolerance_orthogonal_check then
      Except.ok (rotMatrix angle v1 v2')
    else
      Except.error (RotErr.notOrthogonal abs_tolerance_orthogonal_check)
  else
    Except.error (RotErr.dimensionMismatch n1 n2)

/-- When both vectors have the same length, the dimension check passes and
the function reduces to the orthogonality check plus the matrix formula. -/
lemma rotation_same_dim {n : ℕ} (angle tol : ℝ) (v1 v2 : Fin n → ℝ) :
    rotation_from_angle_and_plane angle v1 v2 tol =
      if isclose (dotv (normalize v1) (normalize v2)) 0 tol then
        Except.ok (rotMatrix angle (normalize v1) (normalize v2))
      else
        Except.error (RotErr.notOrthogonal tol) := by
  unfold rotation_from_angle_and_plane
  rw [dif_pos rfl]
  rfl

/-! ## Basic lemmas about norms, normalization and dot products -/

lemma dotv_comm {n : ℕ} (v w : Fin n → ℝ) : dotv v w = dotv w v :=
  Finset.sum_congr rfl fun _ _ => mul_comm _ _

lemma npNorm_eq_zero_iff {n : ℕ} (v : Fin n → ℝ) : npNorm v = 0 ↔ v = 0 := by
  unfold npNorm
  rw [Real.sqrt_eq_zero (by positivity)]
  rw [Finset.sum_eq_zero_iff_of_nonneg fun i _ => sq_nonneg (v i)]
  constructor
  · intro h
    funext i
    exact pow_eq_zero_iff (n := 2) (by norm_num) |>.mp (h i (Finset.mem_univ i))
  · intro h i _
    rw [h]
    simp

lemma npNorm_sq {n : ℕ} (v : Fin n → ℝ) : npNorm v ^ 2 = ∑ i, v i ^ 2 :=
  Real.sq_sqrt (by positivity)

/-- Normalizing a nonzero vector yields a unit vector. -/
lemma dotv_normalize_self {n : ℕ} (v : Fin n → ℝ) (hv : v ≠ 0) :
    dotv (normalize v) (normalize v) = 1 := by
  have hN : npNorm v ≠ 0 := fun h => hv ((npNorm_eq_zero_iff v).1 h)
  unfold dotv normalize
  have step : ∀ i : Fin n, v i / npNorm v * (v i / npNorm v) = v i ^ 2 / npNorm v ^ 2 :=
    fun i => by ring
  rw [Finset.sum_congr rfl fun i _ => step i, ← Finset.sum_div, ← npNorm_sq,
    div_self (pow_ne_zero 2 hN)]

/-- Normalizing an exactly-unit vector leaves it unchanged. -/
lemma normalize_of_unit {n : ℕ} (v : Fin n → ℝ) (hv : dotv v v = 1) :
    normalize v = v := by
  have hsum : ∑ i, v i ^ 2 = 1 := by
    rw [← hv]
    exact Finset.sum_congr rfl fun i _ => sq (v i)
  unfold normalize npNorm
  rw [hsum, Real.sqrt_one]
  funext i
  simp

/-- Exact orthogonality always passes the `math.isclose` check against `0`,
whatever the tolerance. -/
lemma isclose_zero_of_eq_zero (tol : ℝ) {x : ℝ} (hx : x = 0) : isclose x 0 tol := by
  unfold isclose
  rw [hx]
  simp [le_max_iff]

/-! ## Algebra of the projector `V` and the rotation generator `W` -/

lemma vecMulVec_mul_vecMulVec {n : ℕ} (a b c d : Fin n → ℝ) :
    Matrix.vecMulVec a b * Matrix.vecMulVec c d = dotv b c • Matrix.vecMulVec a d := by
  ext i j
  simp only [Matrix.mul_apply, Matrix.vecMulVec_apply, Matrix.smul_apply, smul_eq_mul, dotv]
  rw [Finset.sum_mul]
  exact Finset.sum_congr rfl fun k _ => by ring

lemma vecMulVec_mulVec {n : ℕ} (a b x : Fin n → ℝ) :
    Matrix.vecMulVec a b *ᵥ x = dotv b x • a := by
  funext i
  simp only [Matrix.mulVec, Matrix.vecMulVec_apply, Matrix.dotProduct, dotv, Pi.smul_apply,
    smul_eq_mul]
  rw [Finset.sum_mul]
  exact Finset.sum_congr rfl fun j _ => by ring

lemma Vmat_transpose {n : ℕ} (u1 u2 : Fin n → ℝ) : (Vmat u1 u2)ᵀ = Vmat u1 u2 := by
  unfold Vmat
  ext i j
  simp [Matrix.transpose_apply, Matrix.vecMulVec_apply, mul_comm]

lemma Wmat_transpose {n : ℕ} (u1 u2 : Fin n → ℝ) : (Wmat u1 u2)ᵀ = -Wmat u1 u2 := by
  unfold Wmat
  ext i j
  simp [Matrix.transpose_apply, Matrix.vecMulVec_apply, mul_comm]

lemma Vmat_swap {n : ℕ} (u1 u2 : Fin n → ℝ) : Vmat u2 u1 = Vmat u1 u2 := by
  unfold Vmat
  exact add_comm _ _

lemma Wmat_swap {n : ℕ} (u1 u2 : Fin n → ℝ) : Wmat u2 u1 = -Wmat u1 u2 := by
  unfold Wmat
  exact (neg_sub _ _).symm

section Orthonormal

variable {n : ℕ} {u1 u2 : Fin n → ℝ}

lemma Vmat_mul_Vmat (h1 : dotv u1 u1 = 1) (h2 : dotv u2 u2 = 1) (h12 : dotv u1 u2 = 0) :
    Vmat u1 u2 * Vmat u1 u2 = Vmat u1 u2 := by
  have h21 : dotv u2 u1 = 0 := by rw [dotv_comm]; exact h12
  simp [Vmat, add_mul, mul_add, vecMulVec_mul_vecMulVec, h1, h2, h12, h21]

lemma Vmat_mul_Wmat (h1 : dotv u1 u1 = 1) (h2 : dotv u2 u2 = 1) (h12 : dotv u1 u2 = 0) :
    Vmat u1 u2 * Wmat u1 u2 = Wmat u1 u2 := by
  have h21 : dotv u2 u1 = 0 := by rw [dotv_comm]; exact h12
  simp [Vmat, Wmat, add_mul, mul_sub, vecMulVec_mul_vecMulVec, h1, h2, h12, h21]

lemma Wmat_mul_Vmat (h1 : dotv u1 u1 = 1) (h2 : dotv u2 u2 = 1) (h12 : dotv u1 u2 = 0) :
    Wmat u1 u2 * Vmat u1 u2 = Wmat u1 u2 := by
  have h21 : dotv u2 u1 = 0 := by rw [dotv_comm]; exact h12
  simp [Vmat, Wmat, sub_mul, mul_add, vecMulVec_mul_vecMulVec, h1, h2, h12, h21]
  abel

lemma Wmat_mul_Wmat (h1 : dotv u1 u1 = 1) (h2 : dotv u2 u2 = 1) (h12 : dotv u1 u2 = 0) :
    Wmat u1 u2 * Wmat u1 u2 = -Vmat u1 u2 := by
  have h21 : dotv u2 u1 = 0 := by rw [dotv_comm]; exact h12
  simp [Vmat, Wmat, sub_mul, mul_sub, vecMulVec_mul_vecMulVec, h1, h2, h12, h21]
  abel

/-- The key multiplication rule: two matrices of the shape built on line 55
multiply by the cosine/sine addition pattern.  No unit-circle constraint on
the scalars is needed. -/
lemma rotShape_mul (h1 : dotv u1 u1 = 1) (h2 : dotv u2 u2 = 1) (h12 : dotv u1 u2 = 0)
    (c1 s1 c2 s2 : ℝ) :
    (1 + (c1 - 1) • Vmat u1 u2 - s1 • Wmat u1 u2) *
      (1 + (c2 - 1) • Vmat u1 u2 - s2 • Wmat u1 u2) =
    1 + (c1 * c2 - s1 * s2 - 1) • Vmat u1 u2 - (s1 * c2 + c1 * s2) • Wmat u1 u2 := by
  have hVV := Vmat_mul_Vmat h1 h2 h12
  have hVW := Vmat_mul_Wmat h1 h2 h12
  have hWV := Wmat_mul_Vmat h1 h2 h12
  have hWW := Wmat_mul_Wmat h1 h2 h12
  simp only [mul_sub, sub_mul, mul_add, add_mul, one_mul, mul_one, Matrix.smul_mul,
    Matrix.mul_smul, hVV, hVW, hWV, hWW, smul_smul, smul_neg]
  module

end Orthonormal

/-! ## Derived properties of `rotMatrix` -/

lemma rotMatrix_zero {n : ℕ} (u1 u2 : Fin n → ℝ) : rotMatrix 0 u1 u2 = 1 := by
  simp [rotMatrix]

lemma rotMatrix_mul_rotMatrix {n : ℕ} {u1 u2 : Fin n → ℝ}
    (h1 : dotv u1 u1 = 1) (h2 : dotv u2 u2 = 1) (h12 : dotv u1 u2 = 0) (a b : ℝ) :
    rotMatrix a u1 u2 * rotMatrix b u1 u2 = rotMatrix (a + b) u1 u2 := by
  unfold rotMatrix
  rw [rotShape_mul h1 h2 h12, Real.cos_add, Real.sin_add]

lemma rotMatrix_transpose {n : ℕ} (a : ℝ) (u1 u2 : Fin n → ℝ) :
    (rotMatrix a u1 u2)ᵀ = rotMatrix (-a) u1 u2 := by
  unfold rotMatrix
  simp [Matrix.transpose_sub, Matrix.transpose_add, Matrix.transpose_smul,
    Vmat_transpose, Wmat_transpose, Matrix.transpose_one, Real.cos_neg, Real.sin_neg,
    smul_neg, neg_smul, sub_neg_eq_add]

lemma rotMatrix_swap {n : ℕ} (a : ℝ) (u1 u2 : Fin n → ℝ) :
    rotMatrix a u2 u1 = rotMatrix (-a) u1 u2 := by
  unfold rotMatrix
  rw [Vmat_swap, Wmat_swap, Real.cos_neg, Real.sin_neg]
  simp [smul_neg, neg_smul, sub_neg_eq_add]

lemma rotMatrix_mul_transpose {n : ℕ} {u1 u2 : Fin n → ℝ}
    (h1 : dotv u1 u1 = 1) (h2 : dotv u2 u2 = 1) (h12 : dotv u1 u2 = 0) (a : ℝ) :
    rotMatrix a u1 u2 * (rotMatrix a u1 u2)ᵀ = 1 := by
  rw [rotMatrix_transpose, rotMatrix_mul_rotMatrix h1 h2 h12]
  simp [rotMatrix_zero]

/-- Bilinearity helper for the determinant computation. -/
lemma sum_comb_mul {n : ℕ} (p q : ℝ) (a b c : Fin n → ℝ) :
    ∑ k, (p * a k + q * b k) * c k = p * (∑ k, a k * c k) + q * (∑ k, b k * c k) := by
  rw [Finset.mul_sum, Finset.mul_sum, ← Finset.sum_add_distrib]
  exact Finset.sum_congr rfl fun k _ => by ring

lemma rotMatrix_det {n : ℕ} {u1 u2 : Fin n → ℝ}
    (h1 : dotv u1 u1 = 1) (h2 : dotv u2 u2 = 1) (h12 : dotv u1 u2 = 0) (a : ℝ) :
    (rotMatrix a u1 u2).det = 1 := by
  have h21 : dotv u2 u1 = 0 := by rw [dotv_comm]; exact h12
  have d11 : ∑ m, u1 m * u1 m = 1 := h1
  have d22 : ∑ m, u2 m * u2 m = 1 := h2
  have d12 : ∑ m, u1 m * u2 m = 0 := h12
  have d21 : ∑ m, u2 m * u1 m = 0 := h21
  have key : ∀ c s : ℝ, c ^ 2 + s ^ 2 = 1 →
      (1 + (c - 1) • Vmat u1 u2 - s • Wmat u1 u2).det = 1 := by
    intro c s hcs
    have hprod : (Matrix.of fun (i : Fin n) (j : Fin 2) => ![u1 i, u2 i] j) *
        (Matrix.of fun (j : Fin 2) (k : Fin n) =>
          ![(c - 1) * u1 k - s * u2 k, s * u1 k + (c - 1) * u2 k] j) =
        (c - 1) • Vmat u1 u2 - s • Wmat u1 u2 := by
      ext i k
      simp only [Matrix.mul_apply, Matrix.of_apply, Fin.sum_univ_two, Vmat, Wmat,
        Matrix.sub_apply, Matrix.add_apply, Matrix.smul_apply, Matrix.vecMulVec_apply,
        smul_eq_mul, Matrix.cons_val_zero, Matrix.cons_val_one, Matrix.head_cons]
      ring
    rw [add_sub_assoc, ← hprod, Matrix.det_one_add_mul_comm, Matrix.det_fin_two]
    have e00 : ∑ m, ((c - 1) * u1 m - s * u2 m) * u1 m = c - 1 := by
      rw [Finset.sum_congr rfl fun m _ =>
        show ((c - 1) * u1 m - s * u2 m) * u1 m
          = ((c - 1) * u1 m + (-s) * u2 m) * u1 m from by ring]
      rw [sum_comb_mul, d11, d21]
      ring
    have e01 : ∑ m, ((c - 1) * u1 m - s * u2 m) * u2 m = -s := by
      rw [Finset.sum_congr rfl fun m _ =>
        show ((c - 1) * u1 m - s * u2 m) * u2 m
          = ((c - 1) * u1 m + (-s) * u2 m) * u2 m from by ring]
      rw [sum_comb_mul, d12, d22]
      ring
    have e10 : ∑ m, (s * u1 m + (c - 1) * u2 m) * u1 m = s := by
      rw [sum_comb_mul, d11, d21]
      ring
    have e11 : ∑ m, (s * u1 m + (c - 1) * u2 m) * u2 m = c - 1 := by
      rw [sum_comb_mul, d12, d22]
      ring
    simp only [Matrix.add_apply, Matrix.mul_apply, Matrix.of_apply, Fin.isValue,
      Matrix.cons_val_zero, Matrix.cons_val_one, Matrix.head_cons, Matrix.one_apply_eq,
      Matrix.one_apply_ne (show (0 : Fin 2) ≠ 1 from by decide),
      Matrix.one_apply_ne (show (1 : Fin 2) ≠ 0 from by decide)]
    rw [e00, e01, e10, e11]
    linear_combination hcs
  exact key (Real.cos a) (Real.sin a) (Real.cos_sq_add_sin_sq a)

lemma rotMatrix_mulVec_fst {n : ℕ} {u1 u2 : Fin n → ℝ}
    (h1 : dotv u1 u1 = 1) (h12 : dotv u1 u2 = 0) (a : ℝ) :
    rotMatrix a u1 u2 *ᵥ u1 = Real.cos a • u1 + Real.sin a • u2 := by
  have h21 : dotv u2 u1 = 0 := by rw [dotv_comm]; exact h12
  simp only [rotMatrix, Vmat, Wmat, Matrix.sub_mulVec, Matrix.add_mulVec,
    Matrix.one_mulVec, Matrix.smul_mulVec_assoc, vecMulVec_mulVec, h1, h21]
  module

lemma rotMatrix_mulVec_snd {n : ℕ} {u1 u2 : Fin n → ℝ}
    (h2 : dotv u2 u2 = 1) (h12 : dotv u1 u2 = 0) (a : ℝ) :
    rotMatrix a u1 u2 *ᵥ u2 = Real.cos a • u2 - Real.sin a • u1 := by
  simp only [rotMatrix, Vmat, Wmat, Matrix.sub_mulVec, Matrix.add_mulVec,
    Matrix.one_mulVec, Matrix.smul_mulVec_assoc, vecMulVec_mulVec, h2, h12]
  module

lemma rotMatrix_mulVec_complement {n : ℕ} {u1 u2 : Fin n → ℝ} (a : ℝ) (u : Fin n → ℝ)
    (hu1 : dotv u1 u = 0) (hu2 : dotv u2 u = 0) :
    rotMatrix a u1 u2 *ᵥ u = u := by
  simp only [rotMatrix, Vmat, Wmat, Matrix.sub_mulVec, Matrix.add_mulVec,
    Matrix.one_mulVec, Matrix.smul_mulVec_assoc, vecMulVec_mulVec, hu1, hu2]
  module

/-- For a nonnegative absolute tolerance, the `math.isclose` comparison with
`0` is exactly the absolute-value comparison: the relative-tolerance branch
`1e-9 * |x|` can only dominate `|x|` when `x = 0`. -/
lemma isclose_zero_iff {x tol : ℝ} (htol : 0 ≤ tol) : isclose x 0 tol ↔ |x| ≤ tol := by
  unfold isclose
  rw [sub_zero, abs_zero]
  constructor
  · intro h
    rcases le_max_iff.mp h with h' | h'
    · rw [max_eq_left (abs_nonneg x)] at h'
      have hx0 : |x| ≤ 0 := by nlinarith [abs_nonneg x]
      exact le_trans hx0 htol
    · exact h'
  · intro h
    exact le_max_of_le_right h

/-! ## The claims -/

/-- C1: for every angle and every pair of equal-length (`n ≥ 2`), nonzero
input vectors whose normalized forms pass the orthogonality check,
`rotation_from_angle_and_plane` returns exactly
`I + (cos(angle) - 1)·(v1⊗v1 + v2⊗v2) - sin(angle)·(v1⊗v2 - v2⊗v1)`,
where `v1`, `v2` are the inputs divided by their Euclidean norms and
`(a⊗b) i j = a i * b j`. -/
theorem rotation_from_angle_and_plane_formula {n : ℕ} (angle tol : ℝ)
    (vector1 vector2 : Fin n → ℝ) (hn : 2 ≤ n)
    (h1 : vector1 ≠ 0) (h2 : vector2 ≠ 0)
    (horth : isclose (dotv (normalize vector1) (normalize vector2)) 0 tol) :
    rotation_from_angle_and_plane angle vector1 vector2 tol =
      Except.ok
        (1 + (Real.cos angle - 1) •
            (Matrix.of fun i j =>
              (vector1 i / Real.sqrt (∑ k, vector1 k ^ 2)) *
                (vector1 j / Real.sqrt (∑ k, vector1 k ^ 2)) +
              (vector2 i / Real.sqrt (∑ k, vector2 k ^ 2)) *
                (vector2 j / Real.sqrt (∑ k, vector2 k ^ 2))) -
          Real.sin angle •
            (Matrix.of fun i j =>
              (vector1 i / Real.sqrt (∑ k, vector1 k ^ 2)) *
                (vector2 j / Real.sqrt (∑ k, vector2 k ^ 2)) -
              (vector2 i / Real.sqrt (∑ k, vector2 k ^ 2)) *
                (vector1 j / Real.sqrt (∑ k, vector1 k ^ 2)))) := by
  rw [rotation_same_dim, if_pos horth]
  have hV : Vmat (normalize vector1) (normalize vector2) =
      Matrix.of fun i j =>
        (vector1 i / Real.sqrt (∑ k, vector1 k ^ 2)) *
          (vector1 j / Real.sqrt (∑ k, vector1 k ^ 2)) +
        (vector2 i / Real.sqrt (∑ k, vector2 k ^ 2)) *
          (vector2 j / Real.sqrt (∑ k, vector2 k ^ 2)) := by
    ext i j
    simp [Vmat, Matrix.vecMulVec_apply, normalize, npNorm]
  have hW : Wmat (normalize vector1) (normalize vector2) =
      Matrix.of fun i j =>
        (vector1 i / Real.sqrt (∑ k, vector1 k ^ 2)) *
          (vector2 j / Real.sqrt (∑ k, vector2 k ^ 2)) -
        (vector2 i / Real.sqrt (∑ k, vector2 k ^ 2)) *
          (vector1 j / Real.sqrt (∑ k, vector1 k ^ 2)) := by
    ext i j
    simp [Wmat, Matrix.vecMulVec_apply, normalize, npNorm]
  rw [show rotMatrix angle (normalize vector1) (normalize vector2) =
    1 + (Real.cos angle - 1) • Vmat (normalize vector1) (normalize vector2) -
      Real.sin angle • Wmat (normalize vector1) (normalize vector2) from rfl, hV, hW]

/-- C2: for every angle and every valid input pair (equal length `n ≥ 2`,
nonzero, exactly orthogonal after normalization), the matrix `M` returned by
`rotation_from_angle_and_plane` satisfies `M * Mᵀ = 1` and `det M = 1`. -/
theorem rotation_orthonormal_det_one {n : ℕ} (angle tol : ℝ)
    (vector1 vector2 : Fin n → ℝ) (hn : 2 ≤ n)
    (h1 : vector1 ≠ 0) (h2 : vector2 ≠ 0)
    (horth : dotv (normalize vector1) (normalize vector2) = 0) :
    rotation_from_angle_and_plane angle vector1 vector2 tol =
      Except.ok (rotMatrix angle (normalize vector1) (normalize vector2)) ∧
    rotMatrix angle (normalize vector1) (normalize vector2) *
      (rotMatrix angle (normalize vector1) (normalize vector2))ᵀ = 1 ∧
    (rotMatrix angle (normalize vector1) (normalize vector2)).det = 1 := by
  have hu1 := dotv_normalize_self vector1 h1
  have hu2 := dotv_normalize_self vector2 h2
  refine ⟨?_, ?_, ?_⟩
  · rw [rotation_same_dim, if_pos (isclose_zero_of_eq_zero tol horth)]
  · exact rotMatrix_mul_transpose hu1 hu2 horth angle
  · exact rotMatrix_det hu1 hu2 horth angle

/-- C3: for every angle `a` and exactly orthogonal unit vectors `v1`, `v2`
of length `n ≥ 2`, the returned matrix rotates by `a` inside the plane
spanned by `v1`, `v2` (`M *ᵥ v1 = cos a • v1 + sin a • v2` and
`M *ᵥ v2 = cos a • v2 - sin a • v1`) and is the identity on the orthogonal
complement: `M *ᵥ u = u` whenever `u · v1 = 0` and `u · v2 = 0`. -/
theorem rotation_plane_action {n : ℕ} (a tol : ℝ) (v1 v2 : Fin n → ℝ) (hn : 2 ≤ n)
    (h1 : dotv v1 v1 = 1) (h2 : dotv v2 v2 = 1) (h12 : dotv v1 v2 = 0) :
    rotation_from_angle_and_plane a v1 v2 tol = Except.ok (rotMatrix a v1 v2) ∧
    rotMatrix a v1 v2 *ᵥ v1 = Real.cos a • v1 + Real.sin a • v2 ∧
    rotMatrix a v1 v2 *ᵥ v2 = Real.cos a • v2 - Real.sin a • v1 ∧
    ∀ u : Fin n → ℝ, dotv u v1 = 0 → dotv u v2 = 0 → rotMatrix a v1 v2 *ᵥ u = u := by
  refine ⟨?_, rotMatrix_mulVec_fst h1 h12 a, rotMatrix_mulVec_snd h2 h12 a, ?_⟩
  · rw [rotation_same_dim, normalize_of_unit v1 h1, normalize_of_unit v2 h2,
      if_pos (isclose_zero_of_eq_zero tol h12)]
  · intro u hu1 hu2
    exact rotMatrix_mulVec_complement a u (by rw [dotv_comm]; exact hu1)
      (by rw [dotv_comm]; exact hu2)

/-- C4: for every angle, every nonnegative tolerance `t` and every pair of
equal-length nonzero vectors, the function raises the NotOrthogonal error
(carrying `t`) iff `|normalize(vector1) · normalize(vector2)| > t`; when the
dot product does not exceed `t`, the matrix is built and returned. -/
theorem rotation_notOrthogonal_iff {n : ℕ} (angle : ℝ) {tol : ℝ} (htol : 0 ≤ tol)
    (vector1 vector2 : Fin n → ℝ) (h1 : vector1 ≠ 0) (h2 : vector2 ≠ 0) :
    (rotation_from_angle_and_plane angle vector1 vector2 tol =
        Except.error (RotErr.notOrthogonal tol) ↔
      tol < |dotv (normalize vector1) (normalize vector2)|) ∧
    (|dotv (normalize vector1) (normalize vector2)| ≤ tol →
      rotation_from_angle_and_plane angle vector1 vector2 tol =
        Except.ok (rotMatrix angle (normalize vector1) (normalize vector2))) := by
  constructor
  · rw [rotation_same_dim]
    constructor
    · intro h
      by_contra hlt
      push_neg at hlt
      rw [if_pos ((isclose_zero_iff htol).mpr hlt)] at h
      simp at h
    · intro h
      rw [if_neg]
      intro hic
      exact absurd ((isclose_zero_iff htol).mp hic) (not_le.mpr h)
  · intro h
    rw [rotation_same_dim, if_pos ((isclose_zero_iff htol).mpr h)]

/-- C5: for every angle and every pair of nonzero vectors,
`rotation_from_angle_and_plane` raises the DimensionMismatch error (carrying
both lengths) iff `len(vector1) ≠ len(vector2)`; when the lengths differ the
dimension error is raised before the orthogonality check and no matrix is
ever returned. -/
theorem rotation_dimensionMismatch_iff {n1 n2 : ℕ} (angle tol : ℝ)
    (vector1 : Fin n1 → ℝ) (vector2 : Fin n2 → ℝ)
    (h1 : vector1 ≠ 0) (h2 : vector2 ≠ 0) :
    (rotation_from_angle_and_plane angle vector1 vector2 tol =
        Except.error (RotErr.dimensionMismatch n1 n2) ↔ n1 ≠ n2) ∧
    (n1 ≠ n2 → ∀ M, rotation_from_angle_and_plane angle vector1 vector2 tol ≠
        Except.ok M) := by
  by_cases h : n1 = n2
  · subst h
    rw [rotation_same_dim]
    constructor
    · simp only [ne_eq, not_true_eq_false, iff_false]
      split_ifs <;> simp
    · intro hne
      exact absurd rfl hne
  · unfold rotation_from_angle_and_plane
    rw [dif_neg h]
    refine ⟨by simp [h], fun _ M => by simp⟩

/-- C8: for all angles `a`, `b` and every valid orthogonal pair, composing
the rotation matrices for `a` and `b` on the same plane gives the rotation
matrix for `a + b`. -/
theorem rotation_additivity {n : ℕ} (a b tol : ℝ) (v1 v2 : Fin n → ℝ) (hn : 2 ≤ n)
    (h1 : v1 ≠ 0) (h2 : v2 ≠ 0)
    (horth : dotv (normalize v1) (normalize v2) = 0) :
    rotation_from_angle_and_plane a v1 v2 tol =
      Except.ok (rotMatrix a (normalize v1) (normalize v2)) ∧
    rotation_from_angle_and_plane b v1 v2 tol =
      Except.ok (rotMatrix b (normalize v1) (normalize v2)) ∧
    rotation_from_angle_and_plane (a + b) v1 v2 tol =
      Except.ok (rotMatrix (a + b) (normalize v1) (normalize v2)) ∧
    rotMatrix a (normalize v1) (normalize v2) *
        rotMatrix b (normalize v1) (normalize v2) =
      rotMatrix (a + b) (normalize v1) (normalize v2) := by
  have hic := isclose_zero_of_eq_zero tol horth
  refine ⟨?_, ?_, ?_, ?_⟩
  · rw [rotation_same_dim, if_pos hic]
  · rw [rotation_same_dim, if_pos hic]
  · rw [rotation_same_dim, if_pos hic]
  · exact rotMatrix_mul_rotMatrix (dotv_normalize_self v1 h1)
      (dotv_normalize_self v2 h2) horth a b

/-- C9: for every valid orthogonal pair of dimension `n ≥ 2`,
`rotation_from_angle_and_plane` at angle `0` returns exactly the identity
matrix. -/
theorem rotation_zero_angle_identity {n : ℕ} (tol : ℝ) (v1 v2 : Fin n → ℝ)
    (hn : 2 ≤ n) (h1 : v1 ≠ 0) (h2 : v2 ≠ 0)
    (horth : dotv (normalize v1) (normalize v2) = 0) :
    rotation_from_angle_and_plane 0 v1 v2 tol = Except.ok 1 := by
  rw [rotation_same_dim, if_pos (isclose_zero_of_eq_zero tol horth), rotMatrix_zero]

/-- C10: transposing the result of `rotation_from_angle_and_plane` inverts
the rotation (it equals the result for `-a`), and swapping the two plane
vectors reverses the rotation direction (it also equals the result for
`-a`).  This holds for every angle, tolerance and equal-length input pair,
orthogonal or not. -/
theorem rotation_transpose_neg_swap {n : ℕ} (a tol : ℝ) (v1 v2 : Fin n → ℝ) :
    Except.map Matrix.transpose (rotation_from_angle_and_plane a v1 v2 tol) =
      rotation_from_angle_and_plane (-a) v1 v2 tol ∧
    rotation_from_angle_and_plane a v2 v1 tol =
      rotation_from_angle_and_plane (-a) v1 v2 tol := by
  constructor
  · rw [rotation_same_dim, rotation_same_dim]
    by_cases hic : isclose (dotv (normalize v1) (normalize v2)) 0 tol
    · rw [if_pos hic, if_pos hic]
      simp only [Except.map]
      rw [rotMatrix_transpose]
    · rw [if_neg hic, if_neg hic]
      rfl
  · rw [rotation_same_dim, rotation_same_dim,
      dotv_comm (normalize v2) (normalize v1)]
    by_cases hic : isclose (dotv (normalize v1) (normalize v2)) 0 tol
    · rw [if_pos hic, if_pos hic, rotMatrix_swap]
    · rw [if_neg hic, if_neg hic]

/-! ## Concrete vectors for the witnesses -/

/-- The first standard basis vector of `ℝ²`. -/
def e1 : Fin 2 → ℝ := ![1, 0]

/-- The second standard basis vector of `ℝ²`. -/
def e2 : Fin 2 → ℝ := ![0, 1]

/-- The first standard basis vector of `ℝ³`. -/
def e31 : Fin 3 → ℝ := ![1, 0, 0]

lemma e1_ne_zero : e1 ≠ 0 := by
  intro h
  have h0 := congrFun h 0
  simp [e1] at h0

lemma e2_ne_zero : e2 ≠ 0 := by
  intro h
  have h0 := congrFun h 1
  simp [e2] at h0

lemma e31_ne_zero : e31 ≠ 0 := by
  intro h
  have h0 := congrFun h 0
  simp [e31] at h0

lemma dotv_e1_e1 : dotv e1 e1 = 1 := by
  simp [dotv, e1, Fin.sum_univ_two]

lemma dotv_e2_e2 : dotv e2 e2 = 1 := by
  simp [dotv, e2, Fin.sum_univ_two]

lemma dotv_e1_e2 : dotv e1 e2 = 0 := by
  simp [dotv, e1, e2, Fin.sum_univ_two]

lemma normalize_e1 : normalize e1 = e1 := normalize_of_unit e1 dotv_e1_e1

lemma normalize_e2 : normalize e2 = e2 := normalize_of_unit e2 dotv_e2_e2

lemma dotv_normalize_e1_e2 : dotv (normalize e1) (normalize e2) = 0 := by
  rw [normalize_e1, normalize_e2]
  exact dotv_e1_e2

/-! ## Scaling behaviour (C7) -/

lemma npNorm_smul {n : ℕ} (k : ℝ) (v : Fin n → ℝ) :
    npNorm (fun i => k * v i) = |k| * npNorm v := by
  unfold npNorm
  rw [show ∑ i, (k * v i) ^ 2 = k ^ 2 * ∑ i, v i ^ 2 from by
    rw [Finset.mul_sum]; exact Finset.sum_congr rfl fun i _ => by ring]
  rw [Real.sqrt_mul (sq_nonneg k), Real.sqrt_sq_eq_abs]

lemma normalize_smul {n : ℕ} (k : ℝ) (v : Fin n → ℝ) :
    normalize (fun i => k * v i) = fun i => (k / |k|) * normalize v i := by
  funext i
  unfold normalize
  rw [npNorm_smul, mul_div_mul_comm]

lemma dotv_mul_mul {n : ℕ} (p q : ℝ) (a b : Fin n → ℝ) :
    dotv (fun i => p * a i) (fun i => q * b i) = (p * q) * dotv a b := by
  unfold dotv
  rw [Finset.mul_sum]
  exact Finset.sum_congr rfl fun i _ => by ring

/-- Rescaling both plane vectors by sign factors whose squares and product
are `1` leaves the constructed matrix unchanged. -/
lemma rotMatrix_scale {n : ℕ} (t σ τ : ℝ) (u1 u2 : Fin n → ℝ)
    (hσ : σ * σ = 1) (hτ : τ * τ = 1) (hστ : σ * τ = 1) :
    rotMatrix t (fun i => σ * u1 i) (fun i => τ * u2 i) = rotMatrix t u1 u2 := by
  unfold rotMatrix Vmat Wmat
  ext i j
  simp only [Matrix.sub_apply, Matrix.add_apply, Matrix.smul_apply,
    Matrix.vecMulVec_apply, smul_eq_mul]
  linear_combination ((Real.cos t - 1) * (u1 i * u1 j)) * hσ +
    ((Real.cos t - 1) * (u2 i * u2 j)) * hτ +
    (-(Real.sin t) * (u1 i * u2 j)) * hστ + (Real.sin t * (u2 i * u1 j)) * hστ

/-- C7 (amended): scaling invariance for scalars of the same sign.  For
`k * m > 0` the function returns the same result on `k·v1, m·v2` as on
`v1, v2` — for any angle, tolerance and input vectors. -/
theorem rotation_scaling_invariance_same_sign {n : ℕ} (t tol : ℝ)
    (v1 v2 : Fin n → ℝ) (k m : ℝ) (hkm : 0 < k * m) :
    rotation_from_angle_and_plane t (fun i => k * v1 i) (fun i => m * v2 i) tol =
      rotation_from_angle_and_plane t v1 v2 tol := by
  have hk : k ≠ 0 := by intro h; rw [h, zero_mul] at hkm; exact lt_irrefl 0 hkm
  have hm : m ≠ 0 := by intro h; rw [h, mul_zero] at hkm; exact lt_irrefl 0 hkm
  have hσ2 : k / |k| * (k / |k|) = 1 := by
    rw [div_mul_div_comm, abs_mul_abs_self, div_self (mul_self_ne_zero.mpr hk)]
  have hτ2 : m / |m| * (m / |m|) = 1 := by
    rw [div_mul_div_comm, abs_mul_abs_self, div_self (mul_self_ne_zero.mpr hm)]
  have hστ : k / |k| * (m / |m|) = 1 := by
    rw [div_mul_div_comm, ← abs_mul, abs_of_pos hkm, div_self (ne_of_gt hkm)]
  rw [rotation_same_dim, rotation_same_dim, normalize_smul k v1, normalize_smul m v2,
    dotv_mul_mul, hστ, one_mul, rotMatrix_scale _ _ _ _ _ hσ2 hτ2 hστ]

/-- C7 counterexample: at `k = 1`, `m = -1` the claimed invariance fails:
with `angle = π/2` the two results differ (the rotation direction flips). -/
theorem rotation_scaling_invariance_cex :
    ¬ (rotation_from_angle_and_plane (Real.pi / 2) (fun i => (1:ℝ) * e1 i)
        (fun i => (-1:ℝ) * e2 i) 1e-10 =
      rotation_from_angle_and_plane (Real.pi / 2) e1 e2 1e-10) := by
  intro h
  rw [show (fun i => (1:ℝ) * e1 i) = e1 from funext fun i => one_mul _] at h
  have hw : dotv (fun i => (-1:ℝ) * e2 i) (fun i => (-1:ℝ) * e2 i) = 1 := by
    simp [dotv, e2, Fin.sum_univ_two]
  have hwn : normalize (fun i => (-1:ℝ) * e2 i) = fun i => (-1:ℝ) * e2 i :=
    normalize_of_unit _ hw
  have h12w : dotv (normalize e1) (normalize (fun i => (-1:ℝ) * e2 i)) = 0 := by
    rw [normalize_e1, hwn]
    simp [dotv, e1, e2, Fin.sum_univ_two]
  rw [rotation_same_dim, rotation_same_dim,
    if_pos (isclose_zero_of_eq_zero _ h12w),
    if_pos (isclose_zero_of_eq_zero _ dotv_normalize_e1_e2)] at h
  have hmat := Except.ok.inj h
  rw [normalize_e1, normalize_e2, hwn] at hmat
  have hentry := congrFun (congrFun hmat 0) 1
  have eLHS : rotMatrix (Real.pi / 2) e1 (fun i => (-1:ℝ) * e2 i) 0 1 = 1 := by
    simp [rotMatrix, Vmat, Wmat, Matrix.add_apply, Matrix.sub_apply, Matrix.smul_apply,
      Matrix.vecMulVec_apply, Matrix.one_apply_ne (show (0:Fin 2) ≠ 1 from by decide),
      e1, e2, Real.cos_pi_div_two, Real.sin_pi_div_two]
  have eRHS : rotMatrix (Real.pi / 2) e1 e2 0 1 = -1 := by
    simp [rotMatrix, Vmat, Wmat, Matrix.add_apply, Matrix.sub_apply, Matrix.smul_apply,
      Matrix.vecMulVec_apply, Matrix.one_apply_ne (show (0:Fin 2) ≠ 1 from by decide),
      e1, e2, Real.cos_pi_div_two, Real.sin_pi_div_two]
  rw [eLHS, eRHS] at hentry
  norm_num at hentry

/-- Witness for the amended C7 at `k = 2`, `m = 3`, `v1 = e1`, `v2 = e2`. -/
theorem rotation_scaling_invariance_same_sign_witness :
    (0:ℝ) < 2 * 3 ∧
    rotation_from_angle_and_plane 1 (fun i => (2:ℝ) * e1 i)
        (fun i => (3:ℝ) * e2 i) 1e-10 =
      rotation_from_angle_and_plane 1 e1 e2 1e-10 :=
  ⟨by norm_num,
    rotation_scaling_invariance_same_sign 1 1e-10 e1 e2 2 3 (by norm_num)⟩

/-! ## Witnesses: the hypotheses of each claim hold at concrete inputs -/

/-- Witness for C1 at `angle = 0`, `vector1 = e1`, `vector2 = e2`,
`tol = 1e-10`. -/
theorem rotation_from_angle_and_plane_formula_witness :
    e1 ≠ 0 ∧ isclose (dotv (normalize e1) (normalize e2)) 0 1e-10 ∧
    rotation_from_angle_and_plane 0 e1 e2 1e-10 =
      Except.ok
        (1 + (Real.cos 0 - 1) •
            (Matrix.of fun i j =>
              (e1 i / Real.sqrt (∑ k, e1 k ^ 2)) *
                (e1 j / Real.sqrt (∑ k, e1 k ^ 2)) +
              (e2 i / Real.sqrt (∑ k, e2 k ^ 2)) *
                (e2 j / Real.sqrt (∑ k, e2 k ^ 2))) -
          Real.sin 0 •
            (Matrix.of fun i j =>
              (e1 i / Real.sqrt (∑ k, e1 k ^ 2)) *
                (e2 j / Real.sqrt (∑ k, e2 k ^ 2)) -
              (e2 i / Real.sqrt (∑ k, e2 k ^ 2)) *
                (e1 j / Real.sqrt (∑ k, e1 k ^ 2)))) :=
  ⟨e1_ne_zero, isclose_zero_of_eq_zero 1e-10 dotv_normalize_e1_e2,
    rotation_from_angle_and_plane_formula 0 1e-10 e1 e2 (by norm_num)
      e1_ne_zero e2_ne_zero (isclose_zero_of_eq_zero 1e-10 dotv_normalize_e1_e2)⟩

/-- Witness for C2 at `angle = 1`, `vector1 = e1`, `vector2 = e2`,
`tol = 1e-10`. -/
theorem rotation_orthonormal_det_one_witness :
    e1 ≠ 0 ∧ e2 ≠ 0 ∧ dotv (normalize e1) (normalize e2) = 0 ∧
    (rotation_from_angle_and_plane 1 e1 e2 1e-10 =
        Except.ok (rotMatrix 1 (normalize e1) (normalize e2)) ∧
      rotMatrix 1 (normalize e1) (normalize e2) *
        (rotMatrix 1 (normalize e1) (normalize e2))ᵀ = 1 ∧
      (rotMatrix 1 (normalize e1) (normalize e2)).det = 1) :=
  ⟨e1_ne_zero, e2_ne_zero, dotv_normalize_e1_e2,
    rotation_orthonormal_det_one 1 1e-10 e1 e2 (by norm_num)
      e1_ne_zero e2_ne_zero dotv_normalize_e1_e2⟩

/-- Witness for C3 at `a = 1`, `v1 = e1`, `v2 = e2`, `tol = 1e-10`. -/
theorem rotation_plane_action_witness :
    dotv e1 e1 = 1 ∧ dotv e2 e2 = 1 ∧ dotv e1 e2 = 0 ∧
    (rotation_from_angle_and_plane 1 e1 e2 1e-10 = Except.ok (rotMatrix 1 e1 e2) ∧
      rotMatrix 1 e1 e2 *ᵥ e1 = Real.cos 1 • e1 + Real.sin 1 • e2 ∧
      rotMatrix 1 e1 e2 *ᵥ e2 = Real.cos 1 • e2 - Real.sin 1 • e1 ∧
      ∀ u : Fin 2 → ℝ, dotv u e1 = 0 → dotv u e2 = 0 → rotMatrix 1 e1 e2 *ᵥ u = u) :=
  ⟨dotv_e1_e1, dotv_e2_e2, dotv_e1_e2,
    rotation_plane_action 1 1e-10 e1 e2 (by norm_num)
      dotv_e1_e1 dotv_e2_e2 dotv_e1_e2⟩

/-- Witness for C4 at `angle = 1`, `vector1 = e1`, `vector2 = e2`,
`tol = 1e-10`. -/
theorem rotation_notOrthogonal_iff_witness :
    (0:ℝ) ≤ 1e-10 ∧ e1 ≠ 0 ∧ e2 ≠ 0 ∧
    ((rotation_from_angle_and_plane 1 e1 e2 1e-10 =
        Except.error (RotErr.notOrthogonal 1e-10) ↔
      (1e-10:ℝ) < |dotv (normalize e1) (normalize e2)|) ∧
    (|dotv (normalize e1) (normalize e2)| ≤ 1e-10 →
      rotation_from_angle_and_plane 1 e1 e2 1e-10 =
        Except.ok (rotMatrix 1 (normalize e1) (normalize e2)))) :=
  ⟨by norm_num, e1_ne_zero, e2_ne_zero,
    rotation_notOrthogonal_iff 1 (by norm_num) e1 e2 e1_ne_zero e2_ne_zero⟩

/-- Witness for C5 at `vector1 = e31 : Fin 3 → ℝ`, `vector2 = e2 : Fin 2 → ℝ`
(mismatched lengths 3 and 2). -/
theorem rotation_dimensionMismatch_iff_witness :
    e31 ≠ 0 ∧ e2 ≠ 0 ∧
    ((rotation_from_angle_and_plane 1 e31 e2 1e-10 =
        Except.error (RotErr.dimensionMismatch 3 2) ↔ 3 ≠ 2) ∧
    (3 ≠ 2 → ∀ M, rotation_from_angle_and_plane 1 e31 e2 1e-10 ≠ Except.ok M)) :=
  ⟨e31_ne_zero, e2_ne_zero,
    rotation_dimensionMismatch_iff 1 1e-10 e31 e2 e31_ne_zero e2_ne_zero⟩

/-- Witness for C8 at `a = 1`, `b = 2`, `v1 = e1`, `v2 = e2`, `tol = 1e-10`. -/
theorem rotation_additivity_witness :
    e1 ≠ 0 ∧ e2 ≠ 0 ∧ dotv (normalize e1) (normalize e2) = 0 ∧
    (rotation_from_angle_and_plane 1 e1 e2 1e-10 =
        Except.ok (rotMatrix 1 (normalize e1) (normalize e2)) ∧
      rotation_from_angle_and_plane 2 e1 e2 1e-10 =
        Except.ok (rotMatrix 2 (normalize e1) (normalize e2)) ∧
      rotation_from_angle_and_plane (1 + 2) e1 e2 1e-10 =
        Except.ok (rotMatrix (1 + 2) (normalize e1) (normalize e2)) ∧
      rotMatrix 1 (normalize e1) (normalize e2) *
          rotMatrix 2 (normalize e1) (normalize e2) =
        rotMatrix (1 + 2) (normalize e1) (normalize e2)) :=
  ⟨e1_ne_zero, e2_ne_zero, dotv_normalize_e1_e2,
    rotation_additivity 1 2 1e-10 e1 e2 (by norm_num)
      e1_ne_zero e2_ne_zero dotv_normalize_e1_e2⟩

/-- Witness for C9 at `v1 = e1`, `v2 = e2`, `tol = 1e-10`. -/
theorem rotation_zero_angle_identity_witness :
    e1 ≠ 0 ∧ e2 ≠ 0 ∧ dotv (normalize e1) (normalize e2) = 0 ∧
    rotation_from_angle_and_plane 0 e1 e2 1e-10 = Except.ok 1 :=
  ⟨e1_ne_zero, e2_ne_zero, dotv_normalize_e1_e2,
    rotation_zero_angle_identity 1e-10 e1 e2 (by norm_num)
      e1_ne_zero e2_ne_zero dotv_normalize_e1_e2⟩

/-! ## IEEE-style floating-point model for the zero-norm behaviour (C6)

`FVal` models an IEEE-754 double as an exact real (`fin`), a NaN, or a
signed infinity.  Rounding and overflow of finite arithmetic are not
modelled (finite operations are exact); the NaN/∞ rules follow IEEE 754:
`0/0 = NaN`, `x/0 = ±∞` for finite `x ≠ 0`, NaN absorbs every arithmetic
operation, and every ordered comparison involving NaN is false.  The real
embedding above cannot express this behaviour, since over `ℝ` division by
zero returns `0`. -/

inductive FVal where
  | fin (x : ℝ)
  | nan
  | inf
  | ninf

namespace FVal

/-- IEEE addition. -/
def add : FVal → FVal → FVal
  | fin x, fin y => fin (x + y)
  | nan, _ => nan
  | _, nan => nan
  | inf, ninf => nan
  | ninf, inf => nan
  | inf, _ => inf
  | _, inf => inf
  | ninf, _ => ninf
  | _, ninf => ninf

/-- IEEE negation. -/
def neg : FVal → FVal
  | fin x => fin (-x)
  | nan => nan
  | inf => ninf
  | ninf => inf

/-- IEEE subtraction. -/
def sub (a b : FVal) : FVal := add a (neg b)

/-- IEEE multiplication (`∞ * 0 = NaN`). -/
def mul : FVal → FVal → FVal
  | fin x, fin y => fin (x * y)
  | nan, _ => nan
  | _, nan => nan
  | inf, fin x => if x = 0 then nan else if 0 < x then inf else ninf
  | fin x, inf => if x = 0 then nan else if 0 < x then inf else ninf
  | ninf, fin x => if x = 0 then nan else if 0 < x then ninf else inf
  | fin x, ninf => if x = 0 then nan else if 0 < x then ninf else inf
  | inf, inf => inf
  | inf, ninf => ninf
  | ninf, inf => ninf
  | ninf, ninf => inf

/-- IEEE division (`0/0 = NaN`, `x/0 = ±∞` for `x ≠ 0`, `x/∞ = 0`). -/
def div : FVal → FVal → FVal
  | fin x, fin y =>
      if y = 0 then (if x = 0 then nan else if 0 < x then inf else ninf)
      else fin (x / y)
  | nan, _ => nan
  | _, nan => nan
  | fin _, inf => fin 0
  | fin _, ninf => fin 0
  | inf, fin y => if 0 ≤ y then inf else ninf
  | ninf, fin y => if 0 ≤ y then ninf else inf
  | inf, inf => nan
  | inf, ninf => nan
  | ninf, inf => nan
  | ninf, ninf => nan

/-- IEEE absolute value (`fabs`). -/
def fabs : FVal → FVal
  | fin x => fin |x|
  | nan => nan
  | inf => inf
  | ninf => inf

/-- IEEE square root (`sqrt` of a negative value is NaN). -/
def sqrtF : FVal → FVal
  | fin x => if x < 0 then nan else fin (Real.sqrt x)
  | nan => nan
  | inf => inf
  | ninf => nan

/-- IEEE `<=`: false whenever either operand is NaN. -/
def fle : FVal → FVal → Prop
  | fin x, fin y => x ≤ y
  | nan, _ => False
  | _, nan => False
  | ninf, _ => True
  | _, inf => True
  | inf, _ => False
  | _, ninf => False

/-- IEEE `==`: false whenever either operand is NaN. -/
def feq : FVal → FVal → Prop
  | fin x, fin y => x = y
  | inf, inf => True
  | ninf, ninf => True
  | _, _ => False

/-- `Py_IS_INFINITY`. -/
def isinf (a : FVal) : Prop := a = inf ∨ a = ninf

/-- CPython's `math.isclose(a, b, rel_tol, abs_tol)` kernel:
`a == b || (!isinf a && !isinf b && (|b - a| <= |rel_tol * b| ||
|b - a| <= |rel_tol * a| || |b - a| <= abs_tol))`.  (CPython additionally
rejects negative tolerances with a separate `ValueError`; that path is not
modelled and the theorems below assume a nonnegative tolerance.) -/
def iscloseF (a b rel_tol abs_tol : FVal) : Prop :=
  feq a b ∨ (¬ isinf a ∧ ¬ isinf b ∧
    (fle (fabs (sub b a)) (fabs (mul rel_tol b)) ∨
     fle (fabs (sub b a)) (fabs (mul rel_tol a)) ∨
     fle (fabs (sub b a)) abs_tol))

/-- Left fold used for the sums inside `np.dot` and `np.linalg.norm`
(the summation order is irrelevant here, since finite arithmetic is exact
in this model). -/
def fsum : List FVal → FVal
  | [] => fin 0
  | a :: l => add a (fsum l)

end FVal

/-- `v.dot(w)` in floating point. -/
def dotF {n : ℕ} (v w : Fin n → FVal) : FVal :=
  FVal.fsum ((List.finRange n).map fun i => FVal.mul (v i) (w i))

/-- `np.linalg.norm(v)` in floating point: the square root of the sum of
squares. -/
def normF {n : ℕ} (v : Fin n → FVal) : FVal :=
  FVal.sqrtF (FVal.fsum ((List.finRange n).map fun i => FVal.mul (v i) (v i)))

/-- `v / np.linalg.norm(v)` in floating point. -/
def normalizeF {n : ℕ} (v : Fin n → FVal) : Fin n → FVal :=
  fun i => FVal.div (v i) (normF v)

/-- `rotation_from_angle_and_plane` under the floating-point semantics:
the same control flow as the real embedding, with every vector/matrix
operation performed on `FVal`.  The matrix entry formula is the elementwise
reading of line 55: `(eye + (cos(angle)-1)*V) - sin(angle)*W`. -/
def rotation_from_angle_and_plane_fp {n1 n2 : ℕ} (angle : ℝ)
    (vector1 : Fin n1 → FVal) (vector2 : Fin n2 → FVal)
    (abs_tolerance_orthogonal_check : ℝ) :
    Except RotErr (Matrix (Fin n1) (Fin n1) FVal) :=
  let v1 := normalizeF vector1
  let v2 := normalizeF vector2
  if h : n1 = n2 then
    let v2' : Fin n1 → FVal := fun i => v2 (Fin.cast h i)
    if FVal.iscloseF (dotF v1 v2') (FVal.fin 0) (FVal.fin 1e-9)
        (FVal.fin abs_tolerance_orthogonal_check) then
      Except.ok (Matrix.of fun i j =>
        FVal.sub
          (FVal.add (if i = j then FVal.fin 1 else FVal.fin 0)
            (FVal.mul (FVal.fin (Real.cos angle - 1))
              (FVal.add (FVal.mul (v1 i) (v1 j)) (FVal.mul (v2' i) (v2' j)))))
          (FVal.mul (FVal.fin (Real.sin angle))
            (FVal.sub (FVal.mul (v1 i) (v2' j)) (FVal.mul (v2' i) (v1 j)))))
    else
      Except.error (RotErr.notOrthogonal abs_tolerance_orthogonal_check)
  else
    Except.error (RotErr.dimensionMismatch n1 n2)

/-! ### NaN propagation lemmas -/

lemma FVal.add_nan (a : FVal) : FVal.add a FVal.nan = FVal.nan := by
  cases a <;> rfl

lemma FVal.mul_nan_left (b : FVal) : FVal.mul FVal.nan b = FVal.nan := by
  cases b <;> rfl

lemma FVal.mul_nan_right (a : FVal) : FVal.mul a FVal.nan = FVal.nan := by
  cases a <;> rfl

lemma FVal.nan_add (b : FVal) : FVal.add FVal.nan b = FVal.nan := by
  cases b <;> rfl

lemma FVal.sub_nan (a : FVal) : FVal.sub a FVal.nan = FVal.nan := by
  cases a <;> rfl

lemma FVal.fle_nan (b : FVal) : FVal.fle FVal.nan b = False := by
  cases b <;> rfl

lemma FVal.feq_nan (b : FVal) : FVal.feq FVal.nan b = False := by
  cases b <;> rfl

/-- A NaN first argument always fails `math.isclose`. -/
lemma FVal.not_iscloseF_nan (b c d : FVal) : ¬ FVal.iscloseF FVal.nan b c d := by
  intro h
  rcases h with h | ⟨-, -, h | h | h⟩ <;>
    first
      | (rw [FVal.feq_nan] at h; exact h)
      | (rw [FVal.sub_nan] at h
         rw [show FVal.fabs FVal.nan = FVal.nan from rfl] at h
         rw [FVal.fle_nan] at h
         exact h)

lemma FVal.fsum_eq_zero :
    ∀ l : List FVal, (∀ x ∈ l, x = FVal.fin 0) → FVal.fsum l = FVal.fin 0
  | [], _ => rfl
  | a :: l, h => by
      show FVal.add a (FVal.fsum l) = FVal.fin 0
      rw [h a (List.mem_cons_self a l),
        FVal.fsum_eq_zero l fun x hx => h x (List.mem_cons_of_mem a hx)]
      show FVal.fin (0 + 0) = FVal.fin 0
      norm_num

lemma FVal.fsum_eq_nan :
    ∀ l : List FVal, FVal.nan ∈ l → FVal.fsum l = FVal.nan
  | [], h => absurd h (List.not_mem_nil _)
  | a :: l, h => by
      rcases List.mem_cons.mp h with h | h
      · rw [← h]
        exact FVal.nan_add _
      · show FVal.add a (FVal.fsum l) = FVal.nan
        rw [FVal.fsum_eq_nan l h, FVal.add_nan]

/-- Same-dimension reduction for the floating-point embedding. -/
lemma rotation_fp_same_dim {n : ℕ} (angle tol : ℝ) (v1 v2 : Fin n → FVal) :
    rotation_from_angle_and_plane_fp angle v1 v2 tol =
      if FVal.iscloseF (dotF (normalizeF v1) (normalizeF v2)) (FVal.fin 0)
          (FVal.fin 1e-9) (FVal.fin tol) then
        Except.ok (Matrix.of fun i j =>
          FVal.sub
            (FVal.add (if i = j then FVal.fin 1 else FVal.fin 0)
              (FVal.mul (FVal.fin (Real.cos angle - 1))
                (FVal.add (FVal.mul (normalizeF v1 i) (normalizeF v1 j))
                  (FVal.mul (normalizeF v2 i) (normalizeF v2 j)))))
            (FVal.mul (FVal.fin (Real.sin angle))
              (FVal.sub (FVal.mul (normalizeF v1 i) (normalizeF v2 j))
                (FVal.mul (normalizeF v2 i) (normalizeF v1 j)))))
      else
        Except.error (RotErr.notOrthogonal tol) := by
  unfold rotation_from_angle_and_plane_fp
  rw [dif_pos rfl]
  rfl

/-- A zero vector has exactly-zero Euclidean norm, so every entry of its
normalization is `0/0 = NaN`. -/
lemma fp_normalize_zero_nan {n : ℕ} (v : Fin n → FVal)
    (h : ∀ i, v i = FVal.fin 0) : ∀ i, normalizeF v i = FVal.nan := by
  have hz : FVal.fsum ((List.finRange n).map fun i =>
      FVal.mul (v i) (v i)) = FVal.fin 0 := by
    apply FVal.fsum_eq_zero
    intro x hx
    obtain ⟨i, -, rfl⟩ := List.mem_map.mp hx
    rw [h i]
    show FVal.fin (0 * 0) = FVal.fin 0
    norm_num
  have hnorm : normF v = FVal.fin 0 := by
    unfold normF
    rw [hz]
    show (if (0:ℝ) < 0 then FVal.nan else FVal.fin (Real.sqrt 0)) = FVal.fin 0
    rw [if_neg (lt_irrefl (0:ℝ)), Real.sqrt_zero]
  intro i
  unfold normalizeF
  rw [hnorm, h i]
  show (if (0:ℝ) = 0 then (if (0:ℝ) = 0 then FVal.nan else
    if (0:ℝ) < 0 then FVal.inf else FVal.ninf) else FVal.fin (0 / 0)) = FVal.nan
  rw [if_pos rfl, if_pos rfl]

/-- Core of C6: if either input vector is all-zero, its normalization is
all-NaN, and the NaN dot product makes `math.isclose` return false, so the
function raises the NotOrthogonal error instead of returning a matrix. -/
lemma fp_zero_vector_raises {n : ℕ} (hn : 0 < n) (angle tol : ℝ)
    (vector1 vector2 : Fin n → FVal)
    (h0 : (∀ i, vector1 i = FVal.fin 0) ∨ (∀ i, vector2 i = FVal.fin 0)) :
    rotation_from_angle_and_plane_fp angle vector1 vector2 tol =
      Except.error (RotErr.notOrthogonal tol) := by
  rw [rotation_fp_same_dim, if_neg]
  have hdot : dotF (normalizeF vector1) (normalizeF vector2) = FVal.nan := by
    unfold dotF
    apply FVal.fsum_eq_nan
    apply List.mem_map.mpr
    refine ⟨⟨0, hn⟩, List.mem_finRange _, ?_⟩
    rcases h0 with h | h
    · rw [fp_normalize_zero_nan vector1 h ⟨0, hn⟩]
      exact FVal.mul_nan_left _
    · rw [fp_normalize_zero_nan vector2 h ⟨0, hn⟩]
      exact FVal.mul_nan_right _
  rw [hdot]
  exact FVal.not_iscloseF_nan _ _ _

/-- C6 counterexample: at `angle = 0`, `vector1 = [0, 0]` (zero norm),
`vector2 = [0, 1]`, `tol = 1e-10`, the floating-point function raises the
NotOrthogonal `ValueError` — it does not silently return a NaN/∞ matrix as
the claim states. -/
theorem rotation_fp_zero_vector_cex :
    rotation_from_angle_and_plane_fp 0 ![FVal.fin 0, FVal.fin 0]
        ![FVal.fin 0, FVal.fin 1] 1e-10 =
      Except.error (RotErr.notOrthogonal 1e-10) :=
  fp_zero_vector_raises (by norm_num) 0 1e-10 _ _
    (Or.inl fun i => by fin_cases i <;> rfl)

/-- C6 (amended): when an input vector — either one — has zero norm, the
division by the zero norm does produce NaN values throughout that vector's
normalization, but no NaN/∞ matrix is returned: the NaN dot product fails
the `math.isclose` orthogonality check (every comparison with NaN is
false), so the function raises the NotOrthogonal `ValueError`. -/
theorem rotation_fp_zero_vector_raises {n : ℕ} (hn : 0 < n) (angle tol : ℝ)
    (htol : 0 ≤ tol) (vector1 vector2 : Fin n → FVal)
    (h0 : (∀ i, vector1 i = FVal.fin 0) ∨ (∀ i, vector2 i = FVal.fin 0)) :
    ((∀ i, vector1 i = FVal.fin 0) → ∀ i, normalizeF vector1 i = FVal.nan) ∧
    ((∀ i, vector2 i = FVal.fin 0) → ∀ i, normalizeF vector2 i = FVal.nan) ∧
    rotation_from_angle_and_plane_fp angle vector1 vector2 tol =
      Except.error (RotErr.notOrthogonal tol) :=
  ⟨fp_normalize_zero_nan vector1, fp_normalize_zero_nan vector2,
    fp_zero_vector_raises hn angle tol vector1 vector2 h0⟩

/-- Witness for the amended C6 at `n = 2`, `angle = 1`, `tol = 1e-10`,
exercising both sides of the disjunction: first with
`vector1 = [0, 0]`, `vector2 = [0, 1]`, then with `vector1 = [1, 0]`,
`vector2 = [0, 0]`. -/
theorem rotation_fp_zero_vector_raises_witness :
    0 < 2 ∧ (0:ℝ) ≤ 1e-10 ∧
    (((∀ i : Fin 2, (![FVal.fin 0, FVal.fin 0]) i = FVal.fin 0) →
        ∀ i, normalizeF ![FVal.fin 0, FVal.fin 0] i = FVal.nan) ∧
      ((∀ i : Fin 2, (![FVal.fin 0, FVal.fin 1]) i = FVal.fin 0) →
        ∀ i, normalizeF ![FVal.fin 0, FVal.fin 1] i = FVal.nan) ∧
      rotation_from_angle_and_plane_fp 1 ![FVal.fin 0, FVal.fin 0]
          ![FVal.fin 0, FVal.fin 1] 1e-10 =
        Except.error (RotErr.notOrthogonal 1e-10)) ∧
    (((∀ i : Fin 2, (![FVal.fin 1, FVal.fin 0]) i = FVal.fin 0) →
        ∀ i, normalizeF ![FVal.fin 1, FVal.fin 0] i = FVal.nan) ∧
      ((∀ i : Fin 2, (![FVal.fin 0, FVal.fin 0]) i = FVal.fin 0) →
        ∀ i, normalizeF ![FVal.fin 0, FVal.fin 0] i = FVal.nan) ∧
      rotation_from_angle_and_plane_fp 1 ![FVal.fin 1, FVal.fin 0]
          ![FVal.fin 0, FVal.fin 0] 1e-10 =
        Except.error (RotErr.notOrthogonal 1e-10)) :=
  ⟨by norm_num, by norm_num,
    rotation_fp_zero_vector_raises (by norm_num) 1 1e-10 (by norm_num) _ _
      (Or.inl fun i => by fin_cases i <;> rfl),
    rotation_fp_zero_vector_raises (by norm_num) 1 1e-10 (by norm_num) _ _
      (Or.inr fun i => by fin_cases i <;> rfl)⟩

end Mgen

end
